import Mathlib

/-!
Shallow embedding of the process-execution and structured-logging core of
`ciscripts/util.py` (IndentedLogger, Task, output strategies, execute, which),
together with theorems settling the specification claims about it.

Output text is modelled as `List Char`; the shared logger state (the Python
class attributes `IndentedLogger._indent_level` and
`IndentedLogger._printed_on_secondary_indents`, plus the text written so far
to `sys.stderr`) is threaded explicitly.  The indent level is an `Int`
because the Python code decrements it without a lower bound; the Python expression
`n * "    "` yields the empty string for `n <= 0`, which `Int.toNat`
reproduces.
-/

namespace CiScripts

/-- The process-wide logger state: `IndentedLogger._indent_level`,
`IndentedLogger._printed_on_secondary_indents`, and the accumulated text on
`sys.stderr`. -/
structure LoggerState where
  indentLevel : Int
  printedOnSecondaryIndents : Bool
  stderr : List Char
  deriving Repr, DecidableEq

/-- `print_message`: `sys.stderr.write("{0}".format(message))` — append the
text to the error stream. -/
def print_message (s : List Char) (st : LoggerState) : LoggerState :=
  { st with stderr := st.stderr ++ s }

/-- Python `str.replace(old, new)` specialised to a single-character `old`:
every occurrence of the character is replaced by `new`. -/
def replaceChar (old : Char) (new : List Char) : List Char → List Char
  | [] => []
  | c :: rest =>
      if c = old then new ++ replaceChar old new rest
      else c :: replaceChar old new rest

/-- Python `IndentedLogger._indent_level * "    "`: the indent string, empty
when the level is not positive. -/
def indentChars (level : Int) : List Char :=
  List.replicate (4 * level.toNat) ' '

namespace IndentedLogger

/-- `IndentedLogger.__enter__`: increment the shared indent level. -/
def enter (st : LoggerState) : LoggerState :=
  { st with indentLevel := st.indentLevel + 1 }

/-- `IndentedLogger.__exit__`: decrement the shared indent level; if it is now
0 and the printed-on-secondary-indents flag is set, write one trailing
newline to stderr and clear the flag. -/
def exit (st : LoggerState) : LoggerState :=
  let st := { st with indentLevel := st.indentLevel - 1 }
  if st.indentLevel = 0 ∧ st.printedOnSecondaryIndents = true then
    { st with stderr := st.stderr ++ ['\n'], printedOnSecondaryIndents := false }
  else
    st

/-- `IndentedLogger.message`: if the indent level is positive, set the flag;
replace every `"\r"` by `"\r" + indent` and then every `"\n"` by
`"\n" + indent`; write the result to stderr. -/
def message (text : List Char) (st : LoggerState) : LoggerState :=
  let st :=
    if st.indentLevel > 0 then
      { st with printedOnSecondaryIndents := true }
    else st
  let indent := indentChars st.indentLevel
  let formatted := replaceChar '\r' ('\r' :: indent) text
  let formatted := replaceChar '\n' ('\n' :: indent) formatted
  print_message formatted st

/-- `IndentedLogger.dot`: `sys.stderr.write(".")`, no indent processing. -/
def dot (st : LoggerState) : LoggerState :=
  { st with stderr := st.stderr ++ ['.'] }

end IndentedLogger

/-- The combined state a `Task` touches: the class attribute
`Task.nest_level` and the shared logger state. -/
structure TaskState where
  nestLevel : Int
  logger : LoggerState
  deriving Repr, DecidableEq

namespace Task

/-- `Task.__init__(description)`: choose `"==>"` when `Task.nest_level` is 0,
else `"..."`, and log `"\n{indicator} {description}"` through the logger. -/
def init (description : List Char) (ts : TaskState) : TaskState :=
  let indicator : List Char := if ts.nestLevel = 0 then "==>".data else "...".data
  { ts with
    logger := IndentedLogger.message ('\n' :: (indicator ++ ' ' :: description)) ts.logger }

/-- `Task.__enter__`: increment `Task.nest_level`, then enter the logger
scope. -/
def enter (ts : TaskState) : TaskState :=
  { nestLevel := ts.nestLevel + 1, logger := IndentedLogger.enter ts.logger }

/-- `Task.__exit__`: exit the logger scope first, then decrement
`Task.nest_level`. -/
def exit (ts : TaskState) : TaskState :=
  let logger := IndentedLogger.exit ts.logger
  { nestLevel := ts.nestLevel - 1, logger := logger }

end Task

/-- `output_on_fail(process, outputs)`: the reader threads fully drain the
two streams into `stdout` and `stderr` buffers and are joined before use, so
the strategy is a function of the two captured buffers and the exit status
from `process.wait()`.  If the status is nonzero it logs `"\n"`, then the
captured stdout, then the captured stderr, each via the logger; it returns
the status either way. -/
def output_on_fail (stdoutBuf stderrBuf : List Char) (status : Int)
    (st : LoggerState) : LoggerState × Int :=
  if status ≠ 0 then
    let st := IndentedLogger.message ['\n'] st
    let st := IndentedLogger.message stdoutBuf st
    let st := IndentedLogger.message stderrBuf st
    (st, status)
  else
    (st, status)

/-- The loop body of the `output_printer` thread inside `running_output`:
`read_first_byte` starts false; each `file_handle.read(1)` yields one
character of `data` until end of stream; on the first byte, if it is not a
newline, `logger.message("\n")` runs first; every byte is then forwarded via
`logger.message`. -/
def outputPrinterFrom (readFirstByte : Bool) (data : List Char)
    (st : LoggerState) : LoggerState :=
  match data with
  | [] => st
  | c :: rest =>
      if readFirstByte then
        outputPrinterFrom true rest (IndentedLogger.message [c] st)
      else
        let st := if c ≠ '\n' then IndentedLogger.message ['\n'] st else st
        outputPrinterFrom true rest (IndentedLogger.message [c] st)

/-- `output_printer(file_handle)` in `running_output`, applied to the full
byte sequence the handle will deliver. -/
def output_printer (data : List Char) (st : LoggerState) : LoggerState :=
  outputPrinterFrom false data st

/-- The stdout reader thread of `running_output`:
`threading.Thread(target=output_printer, args=(outputs[0], ))`. -/
def running_output_stdoutReader : List Char → LoggerState → LoggerState :=
  output_printer

/-- The stderr reader thread of `running_output`:
`threading.Thread(target=output_printer, args=(outputs[1], ))` — the same
`output_printer` function as for stdout. -/
def running_output_stderrReader : List Char → LoggerState → LoggerState :=
  output_printer

/-- A Python exception value, recorded as the name of the exception class
together with its message. -/
structure PyError where
  kind : String
  msg : String
  deriving Repr, DecidableEq

/-- The pair of pipe file objects `(process.stdout, process.stderr)` handed
to `close_file_pair`, tracking whether each has been closed. -/
structure FilePair where
  stdoutClosed : Bool
  stderrClosed : Bool
  deriving Repr, DecidableEq

/-- `close_file_pair(pair)`: run the body (which yields the pair and may
raise, modelled by `Except`), then in the `finally` block close
`pair[0]` and `pair[1]` regardless of how the body finished, and propagate
the result of the body. -/
def close_file_pair {σ E α : Type} (body : FilePair → (FilePair × σ) × Except E α)
    (pair : FilePair) : (FilePair × σ) × Except E α :=
  let ((pair, s), r) := body pair
  (({ pair with stdoutClosed := true, stderrClosed := true }, s), r)

/-- How a call to `execute` finishes: a returned exit status, an exception
raised while spawning, or an exception propagated from the output
strategy. -/
inductive ExecOutcome (E : Type) where
  | returned (status : Int)
  | spawnFailed (err : PyError)
  | strategyRaised (e : E)
  deriving Repr, DecidableEq

/-- The Python exception class name of the raised error, if `execute` raised
one while spawning. -/
def ExecOutcome.spawnErrorKind {E : Type} : ExecOutcome E → Option String
  | .spawnFailed err => some err.kind
  | _ => none

/-- The observable effects of one call to `execute`. -/
structure ExecResult (E : Type) where
  logger : LoggerState
  noteFailureCalls : List Bool
  streams : FilePair
  outcome : ExecOutcome E
  deriving Repr, DecidableEq

/-- Python `" ".join(args)`. -/
def joinSpace : List String → String
  | [] => ""
  | [a] => a
  | a :: rest => a ++ " " ++ joinSpace rest

/-- The `with close_file_pair(...)` body of `execute`: invoke the output
strategy on the process streams; when it returns status 0, stop; when it
returns a nonzero status, log the failure banner
`"!!! Process {cmd} failed with {status}"` and call
`container.note_failure(instant_fail)` where
`instant_fail = kwargs.get("instant_fail") or False`; when the strategy
raises, propagate.  The result records the logger state, the `note_failure`
calls made, the stream pair, and how the body finished. -/
def executeBody {E : Type} (strategy : LoggerState → LoggerState × Except E Int)
    (args : List String) (instantFailKwarg : Option Bool) (st : LoggerState)
    (pair : FilePair) : (FilePair × (LoggerState × List Bool)) × Except E Int :=
  match strategy st with
  | (st, .error e) => ((pair, (st, [])), .error e)
  | (st, .ok status) =>
      let instant_fail := instantFailKwarg.getD false
      if status ≠ 0 then
        let cmd := joinSpace args
        let banner := "!!! Process " ++ cmd ++ " failed with " ++ toString status
        let st := IndentedLogger.message banner.data st
        ((pair, (st, [instant_fail])), .ok status)
      else
        ((pair, (st, [])), .ok status)

/-- `execute(container, output_strategy, *args, **kwargs)`.  `spawnError` is
`some errText` when `subprocess.Popen` raises an `OSError` with text
`errText`, in which case `execute` raises
`Exception("Failed to execute {cmd} - {err}")` before any pipe exists and
before the strategy runs.  Otherwise the strategy body runs inside
`close_file_pair` on the fresh (open) pipe pair, so both streams are closed
when the body finishes, normally or by an exception. -/
def execute {E : Type} (spawnError : Option String)
    (strategy : LoggerState → LoggerState × Except E Int)
    (args : List String) (instantFailKwarg : Option Bool)
    (st : LoggerState) : ExecResult E :=
  match spawnError with
  | some errText =>
      { logger := st
        noteFailureCalls := []
        streams := { stdoutClosed := false, stderrClosed := false }
        outcome := .spawnFailed
          { kind := "Exception"
            msg := "Failed to execute " ++ joinSpace args ++ " - " ++ errText } }
  | none =>
      let ((pair, (st, calls)), r) :=
        close_file_pair (executeBody strategy args instantFailKwarg st)
          { stdoutClosed := false, stderrClosed := false }
      { logger := st
        noteFailureCalls := calls
        streams := pair
        outcome := match r with
          | .ok status => .returned status
          | .error e => .strategyRaised e }

/-- The abstract filesystem and path primitives `which` consults. -/
structure FileSystem where
  realpathNormcase : String → String
  pathJoin : String → String → String
  pathExists : String → Bool
  isDir : String → Bool
  accessXF : String → Bool

/-- `is_executable(file)` inside `which`: the file exists, is not a
directory, and `os.access(file, os.F_OK | os.X_OK)` holds. -/
def is_executable (fs : FileSystem) (file : String) : Bool :=
  fs.pathExists file && !fs.isDir file && fs.accessXF file

/-- The loop of `which` over the normalized PATH entries, carrying the
`seen` set of entries already checked and found not to contain the
executable. -/
def whichLoop (fs : FileSystem) (executable : String) :
    List String → List String → Option String
  | [], _ => none
  | path :: rest, seen =>
      if path ∈ seen then whichLoop fs executable rest seen
      else
        let full_path := fs.pathJoin path executable
        if is_executable fs full_path then some full_path
        else whichLoop fs executable rest (path :: seen)

/-- `which(executable)`: walk the PATH entries, each case-normalized via
`normalize = os.path.normcase(os.path.realpath(path))`, skipping entries
already seen to fail, and return the first join that is executable, else
`None`. -/
def which (fs : FileSystem) (pathList : List String) (executable : String) :
    Option String :=
  whichLoop fs executable (pathList.map fs.realpathNormcase) []

/-- The description of `which` in the claim, stated directly: map each PATH entry
through case-normalizing realpath, find the first whose join with the
executable exists, is not a directory and is executable, and return that
join; otherwise `None`. -/
def whichSpec (fs : FileSystem) (pathList : List String) (executable : String) :
    Option String :=
  ((pathList.map fs.realpathNormcase).find?
      (fun p => is_executable fs (fs.pathJoin p executable))).map
    (fun p => fs.pathJoin p executable)

/-- The rewriting of `message` as the claim describes it, stated directly: the
indent string is inserted immediately after every carriage-return and after
every newline of the text. -/
def indentAfterBreaks (indent : List Char) : List Char → List Char
  | [] => []
  | c :: rest =>
      if c = '\r' ∨ c = '\n' then c :: (indent ++ indentAfterBreaks indent rest)
      else c :: indentAfterBreaks indent rest

theorem replaceChar_append (old : Char) (new l₁ l₂ : List Char) :
    replaceChar old new (l₁ ++ l₂)
      = replaceChar old new l₁ ++ replaceChar old new l₂ := by
  induction l₁ with
  | nil => rfl
  | cons c rest ih =>
      by_cases h : c = old <;> simp [replaceChar, h, ih]

theorem replaceChar_of_not_mem (old : Char) (new l : List Char)
    (h : old ∉ l) : replaceChar old new l = l := by
  induction l with
  | nil => rfl
  | cons c rest ih =>
      simp only [List.mem_cons, not_or] at h
      rw [replaceChar, if_neg (fun hc => h.1 hc.symm), ih h.2]

theorem not_mem_indentChars (c : Char) (h : c ≠ ' ') (lvl : Int) :
    c ∉ indentChars lvl := by
  simp [indentChars, List.mem_replicate, h]

/-- The two sequential replacements performed by `message` coincide with the
direct insertion of the indent after every break character, provided the
indent itself contains no break characters. -/
theorem replace_breaks_eq (ind : List Char)
    (hn : '\n' ∉ ind) (text : List Char) :
    replaceChar '\n' ('\n' :: ind) (replaceChar '\r' ('\r' :: ind) text)
      = indentAfterBreaks ind text := by
  induction text with
  | nil => rfl
  | cons c rest ih =>
      by_cases hcr : c = '\r'
      · subst hcr
        have hnotmem : '\n' ∉ ('\r' :: ind) := by
          intro hmem
          rcases List.mem_cons.mp hmem with h | h
          · exact absurd h (by decide)
          · exact hn h
        rw [replaceChar, if_pos rfl, replaceChar_append,
            replaceChar_of_not_mem _ _ _ hnotmem, ih]
        simp [indentAfterBreaks]
      · by_cases hcn : c = '\n'
        · subst hcn
          rw [replaceChar, if_neg (by decide)]
          rw [replaceChar, if_pos rfl, ih]
          simp [indentAfterBreaks]
        · rw [replaceChar, if_neg hcr, replaceChar, if_neg hcn, ih]
          rw [indentAfterBreaks, if_neg (by simp [hcr, hcn])]

/-- Closed form of `IndentedLogger.message`: the indent level is unchanged,
the flag is forced to true exactly when the level is positive, and the text
is appended to stderr with the indent string inserted after every break. -/
theorem message_spec (text : List Char) (st : LoggerState) :
    IndentedLogger.message text st =
      { indentLevel := st.indentLevel
        printedOnSecondaryIndents :=
          if st.indentLevel > 0 then true else st.printedOnSecondaryIndents
        stderr := st.stderr
          ++ indentAfterBreaks (indentChars st.indentLevel) text } := by
  have key := replace_breaks_eq (indentChars st.indentLevel)
    (not_mem_indentChars _ (by decide) _) text
  unfold IndentedLogger.message print_message
  by_cases h : st.indentLevel > 0 <;> simp [h, key]

/-- Closed form of `IndentedLogger.exit`: the depth always drops by one, and
the trailing newline plus flag reset happen exactly when the new depth is 0
and the flag was set. -/
theorem exit_spec (st : LoggerState) :
    IndentedLogger.exit st =
      if st.indentLevel - 1 = 0 ∧ st.printedOnSecondaryIndents = true then
        { indentLevel := st.indentLevel - 1
          printedOnSecondaryIndents := false
          stderr := st.stderr ++ ['\n'] }
      else
        { indentLevel := st.indentLevel - 1
          printedOnSecondaryIndents := st.printedOnSecondaryIndents
          stderr := st.stderr } := by
  unfold IndentedLogger.exit
  by_cases h : st.indentLevel - 1 = 0 ∧ st.printedOnSecondaryIndents = true <;>
    simp [h]

/-- C3: exiting the nested scope decrements the shared depth counter and,
exactly when the resulting depth is 0 and the printed-while-nested flag is
set, appends a single trailing newline and clears the flag; in every other
case stderr and the flag are untouched, so a fully-exited top-level task
with nested output yields exactly one trailing newline and one with no
nested output yields none. -/
theorem claim_C3 (st : LoggerState) :
    IndentedLogger.exit st =
      if st.indentLevel - 1 = 0 ∧ st.printedOnSecondaryIndents = true then
        { indentLevel := st.indentLevel - 1
          printedOnSecondaryIndents := false
          stderr := st.stderr ++ ['\n'] }
      else
        { indentLevel := st.indentLevel - 1
          printedOnSecondaryIndents := st.printedOnSecondaryIndents
          stderr := st.stderr } :=
  exit_spec st

/-- C4: for every text and every depth d ≥ 0, `message` writes to the error
stream exactly the text with the string of 4*d spaces inserted immediately
after every carriage-return and after every newline, appends no trailing
newline of its own, keeps the depth unchanged, and when d > 0 sets the
printed-while-nested flag. -/
theorem claim_C4 (d : Nat) (text : List Char) (st : LoggerState)
    (hd : st.indentLevel = (d : Int)) :
    (IndentedLogger.message text st).stderr
        = st.stderr ++ indentAfterBreaks (List.replicate (4 * d) ' ') text ∧
    (IndentedLogger.message text st).indentLevel = st.indentLevel ∧
    (0 < d →
      (IndentedLogger.message text st).printedOnSecondaryIndents = true) := by
  rw [message_spec]
  refine ⟨by simp [indentChars, hd], rfl, ?_⟩
  intro hdpos
  have : st.indentLevel > 0 := by rw [hd]; exact_mod_cast hdpos
  simp [this]

/-- Witness for C4: at depth 1, the text `"a\nb"` is written as
`"a\n    b"` with no trailing newline, and the flag is set. -/
theorem claim_C4_witness :
    ({ indentLevel := 1, printedOnSecondaryIndents := false, stderr := [] }
        : LoggerState).indentLevel = ((1 : Nat) : Int) ∧
    (IndentedLogger.message "a\nb".data
        { indentLevel := 1, printedOnSecondaryIndents := false,
          stderr := [] }).stderr = "a\n    b".data ∧
    (IndentedLogger.message "a\nb".data
        { indentLevel := 1, printedOnSecondaryIndents := false,
          stderr := [] }).printedOnSecondaryIndents = true := by
  have h := claim_C4 1 "a\nb".data
    { indentLevel := 1, printedOnSecondaryIndents := false, stderr := [] } rfl
  refine ⟨rfl, ?_, h.2.2 (by decide)⟩
  rw [h.1]
  decide

/-- C9: an empty message at depth d > 0 sets the printed-while-nested flag
even though nothing is visibly written, and when the depth is 1 the
enclosing top-level scope exit then emits the trailing separator newline. -/
theorem claim_C9 (st : LoggerState) (h : 0 < st.indentLevel) :
    (IndentedLogger.message [] st).printedOnSecondaryIndents = true ∧
    (IndentedLogger.message [] st).stderr = st.stderr ∧
    (IndentedLogger.message [] st).indentLevel = st.indentLevel ∧
    (st.indentLevel = 1 →
      (IndentedLogger.exit (IndentedLogger.message [] st)).stderr
        = st.stderr ++ ['\n']) := by
  rw [message_spec]
  refine ⟨by simp [h], by simp [indentAfterBreaks], rfl, ?_⟩
  intro h1
  rw [exit_spec]
  simp [h1, indentAfterBreaks]

/-- Witness for C9: entering depth 1 with the flag clear, a single empty
message followed by the scope exit emits exactly the separator newline. -/
theorem claim_C9_witness :
    (0 : Int) <
      ({ indentLevel := 1, printedOnSecondaryIndents := false, stderr := [] }
        : LoggerState).indentLevel ∧
    (IndentedLogger.exit (IndentedLogger.message []
        { indentLevel := 1, printedOnSecondaryIndents := false,
          stderr := [] })).stderr = ['\n'] :=
  ⟨by decide,
   (claim_C9
      { indentLevel := 1, printedOnSecondaryIndents := false, stderr := [] }
      (by decide)).2.2.2 rfl⟩

theorem exit_indentLevel (st : LoggerState) :
    (IndentedLogger.exit st).indentLevel = st.indentLevel - 1 := by
  rw [exit_spec]
  by_cases h : st.indentLevel - 1 = 0 ∧ st.printedOnSecondaryIndents = true <;>
    simp [h]

/-- C5: constructing a Task emits, before the scope is entered, a header
through the logger whose text is `"\n==> " + desc` at task nest level 0 and
`"\n... " + desc` otherwise; scope entry increments the task counter and the
logger depth, scope exit exits the logger scope and decrements the task
counter, and counters that agree stay in lockstep across entry and exit. -/
theorem claim_C5 (description : List Char) (ts : TaskState) :
    Task.init description ts =
      { ts with
        logger :=
          IndentedLogger.message
            ((if ts.nestLevel = 0 then "\n==> ".data else "\n... ".data)
              ++ description) ts.logger } ∧
    (Task.enter ts).nestLevel = ts.nestLevel + 1 ∧
    (Task.enter ts).logger.indentLevel = ts.logger.indentLevel + 1 ∧
    (Task.exit ts).logger = IndentedLogger.exit ts.logger ∧
    (Task.exit ts).nestLevel = ts.nestLevel - 1 ∧
    (ts.nestLevel = ts.logger.indentLevel →
      (Task.enter ts).nestLevel = (Task.enter ts).logger.indentLevel ∧
      (Task.exit ts).nestLevel = (Task.exit ts).logger.indentLevel) := by
  refine ⟨?_, rfl, rfl, rfl, rfl, ?_⟩
  · by_cases h : ts.nestLevel = 0 <;> simp [Task.init, h]
  · intro h
    refine ⟨?_, ?_⟩
    · show ts.nestLevel + 1 = (IndentedLogger.enter ts.logger).indentLevel
      rw [IndentedLogger.enter, h]
    · show ts.nestLevel - 1 = (IndentedLogger.exit ts.logger).indentLevel
      rw [exit_indentLevel, h]

/-- Witness for C5: with the task counter and logger depth both 0, the
lockstep conjunct holds after entry and after exit. -/
theorem claim_C5_witness :
    Task.init "Description".data
        { nestLevel := 0,
          logger := { indentLevel := 0, printedOnSecondaryIndents := false,
                      stderr := [] } } =
      { nestLevel := 0,
        logger := { indentLevel := 0, printedOnSecondaryIndents := false,
                    stderr := "\n==> Description".data } } ∧
    (Task.enter
        { nestLevel := 0,
          logger := { indentLevel := 0, printedOnSecondaryIndents := false,
                      stderr := [] } }).nestLevel =
      (Task.enter
        { nestLevel := 0,
          logger := { indentLevel := 0, printedOnSecondaryIndents := false,
                      stderr := [] } }).logger.indentLevel := by
  have h := claim_C5 "Description".data
    { nestLevel := 0,
      logger := { indentLevel := 0, printedOnSecondaryIndents := false,
                  stderr := [] } }
  refine ⟨?_, (h.2.2.2.2.2 rfl).1⟩
  rw [h.1]
  decide

/-- C2 (counterexample to the claim as stated): the claim says bytes from
stderr are forwarded without any initial blank-line emission, so the stderr
reader of `running_output`, fed the single byte `x` at depth 0, would log
exactly `x`; in the code that reader is the same `output_printer` used for
stdout, and it logs `\n` followed by `x`. -/
theorem claim_C2_counterexample :
    (running_output_stderrReader ['x']
        { indentLevel := 0, printedOnSecondaryIndents := false,
          stderr := [] }).stderr = ['\n', 'x'] ∧
    (['\n', 'x'] : List Char) ≠ ['x'] := by
  exact ⟨by decide, by decide⟩

/-- C2 (amended): under the live-streaming strategy the stdout and stderr
readers are the same function, and each applies the initial-blank-line rule
to its own stream: the first byte read, if non-empty and not a newline,
causes a blank-line emission through the logger before that byte is
forwarded, and a first newline byte gets no extra blank line. -/
theorem claim_C2 (c : Char) (rest : List Char) (st : LoggerState) :
    running_output_stdoutReader = running_output_stderrReader ∧
    running_output_stderrReader (c :: rest) st =
      outputPrinterFrom true rest
        (IndentedLogger.message [c]
          (if c ≠ '\n' then IndentedLogger.message ['\n'] st else st)) := by
  exact ⟨rfl, rfl⟩

/-- C6: on a zero exit status the suppressed-capture-on-fail strategy logs
none of the captured output; on a nonzero status it logs, in order and each
through the logger, a blank line, the entire captured stdout buffer, and the
entire captured stderr buffer; the status is returned either way. -/
theorem claim_C6 (stdoutBuf stderrBuf : List Char) (status : Int)
    (st : LoggerState) :
    output_on_fail stdoutBuf stderrBuf status st =
      (if status ≠ 0 then
        IndentedLogger.message stderrBuf
          (IndentedLogger.message stdoutBuf
            (IndentedLogger.message ['\n'] st))
      else st, status) ∧
    (output_on_fail stdoutBuf stderrBuf status st).1.stderr =
      st.stderr ++
        (if status ≠ 0 then
          indentAfterBreaks (indentChars st.indentLevel) ['\n']
            ++ indentAfterBreaks (indentChars st.indentLevel) stdoutBuf
            ++ indentAfterBreaks (indentChars st.indentLevel) stderrBuf
        else []) := by
  by_cases h : status ≠ 0
  · refine ⟨by simp [output_on_fail, h], ?_⟩
    simp [output_on_fail, h, message_spec, List.append_assoc]
  · refine ⟨by simp [output_on_fail, h], ?_⟩
    simp [output_on_fail, h]

/-- C1: when the output strategy returns a nonzero exit status, `execute`
logs exactly one banner line `!!! Process {joined command} failed with
{status}` through the logger, invokes note_failure exactly once with the
supplied instant-fail flag (false when the kwarg is absent), and returns the
status; when the status is zero, no banner is logged, note_failure is never
called, and the status 0 is returned. -/
theorem claim_C1 {E : Type}
    (strategy : LoggerState → LoggerState × Except E Int)
    (args : List String) (instantFailKwarg : Option Bool)
    (st stratSt : LoggerState) (status : Int)
    (hstrat : strategy st = (stratSt, Except.ok status)) :
    execute none strategy args instantFailKwarg st =
      if status ≠ 0 then
        { logger :=
            IndentedLogger.message
              ("!!! Process " ++ joinSpace args ++ " failed with "
                ++ toString status).data stratSt
          noteFailureCalls := [instantFailKwarg.getD false]
          streams := { stdoutClosed := true, stderrClosed := true }
          outcome := .returned status }
      else
        { logger := stratSt
          noteFailureCalls := []
          streams := { stdoutClosed := true, stderrClosed := true }
          outcome := .returned status } := by
  by_cases h : status ≠ 0 <;>
    simp [execute, close_file_pair, executeBody, hstrat, h]

/-- Witness for C1: a strategy returning status 1 on the command `false`
yields the banner, one note_failure call with flag false, and status 1. -/
theorem claim_C1_witness :
    (fun st => (st, Except.ok (1 : Int)) :
        LoggerState → LoggerState × Except Unit Int)
      { indentLevel := 0, printedOnSecondaryIndents := false, stderr := [] } =
      ({ indentLevel := 0, printedOnSecondaryIndents := false, stderr := [] },
        Except.ok 1) ∧
    execute none
        (fun st => (st, Except.ok (1 : Int)) :
          LoggerState → LoggerState × Except Unit Int)
        ["false"] none
        { indentLevel := 0, printedOnSecondaryIndents := false,
          stderr := [] } =
      { logger := { indentLevel := 0, printedOnSecondaryIndents := false,
                    stderr := "!!! Process false failed with 1".data }
        noteFailureCalls := [false]
        streams := { stdoutClosed := true, stderrClosed := true }
        outcome := .returned 1 } := by
  have h := claim_C1 (E := Unit) (fun st => (st, Except.ok (1 : Int)))
    ["false"] none
    { indentLevel := 0, printedOnSecondaryIndents := false, stderr := [] }
    { indentLevel := 0, printedOnSecondaryIndents := false, stderr := [] }
    1 rfl
  refine ⟨rfl, ?_⟩
  rw [h]
  decide

theorem close_file_pair_closes {σ E α : Type}
    (body : FilePair → (FilePair × σ) × Except E α) (pair : FilePair) :
    (close_file_pair body pair).1.1.stdoutClosed = true ∧
    (close_file_pair body pair).1.1.stderrClosed = true := by
  rcases h : body pair with ⟨⟨p, s⟩, r⟩
  simp [close_file_pair, h]

/-- C7: for every successfully spawned command, both process output streams
are closed when `execute` completes, on every exit path of the strategy
invocation, including the paths on which the strategy raises. -/
theorem claim_C7 {E : Type}
    (strategy : LoggerState → LoggerState × Except E Int)
    (args : List String) (instantFailKwarg : Option Bool) (st : LoggerState) :
    (execute none strategy args instantFailKwarg st).streams.stdoutClosed
        = true ∧
    (execute none strategy args instantFailKwarg st).streams.stderrClosed
        = true := by
  have h := close_file_pair_closes
    (executeBody strategy args instantFailKwarg st)
    { stdoutClosed := false, stderrClosed := false }
  rcases hcp : close_file_pair (executeBody strategy args instantFailKwarg st)
      { stdoutClosed := false, stderrClosed := false } with ⟨⟨p, st2, calls⟩, r⟩
  rw [hcp] at h
  simpa [execute, hcp] using h

/-- C8 (counterexample to the claim as stated): the claim says a failed
spawn raises an error of a dedicated SpawnError kind; in the code the raised
exception is the generic built-in `Exception` class, whose name differs from
SpawnError. -/
theorem claim_C8_counterexample :
    ((execute (E := Unit) (some "No such file or directory")
        (fun st => (st, Except.ok 0)) ["missing-bin"] none
        { indentLevel := 0, printedOnSecondaryIndents := false,
          stderr := [] }).outcome).spawnErrorKind = some "Exception" ∧
    (some "Exception" : Option String) ≠ some "SpawnError" := by
  exact ⟨rfl, by decide⟩

/-- C8 (amended): for every command whose spawn fails at the OS level,
`execute` raises a generic `Exception` (not a dedicated SpawnError class)
whose message contains both the space-joined attempted command line and the
underlying OS error text, without invoking the output strategy or the
note_failure hook, and without retrying: the result is independent of the
strategy and of the instant-fail kwarg, no note_failure call is made, and
the logger is untouched. -/
theorem claim_C8 {E : Type}
    (strat1 strat2 : LoggerState → LoggerState × Except E Int)
    (args : List String) (ifk1 ifk2 : Option Bool) (st : LoggerState)
    (errText : String) :
    execute (some errText) strat1 args ifk1 st =
      execute (some errText) strat2 args ifk2 st ∧
    (execute (some errText) strat1 args ifk1 st).outcome =
      .spawnFailed
        { kind := "Exception"
          msg := "Failed to execute " ++ joinSpace args ++ " - " ++ errText } ∧
    (execute (some errText) strat1 args ifk1 st).noteFailureCalls = [] ∧
    (execute (some errText) strat1 args ifk1 st).logger = st := by
  exact ⟨rfl, rfl, rfl, rfl⟩

theorem whichLoop_eq_find (fs : FileSystem) (executable : String)
    (l : List String) :
    ∀ seen : List String,
    (∀ p ∈ seen, is_executable fs (fs.pathJoin p executable) = false) →
    whichLoop fs executable l seen =
      (l.find? (fun p => is_executable fs (fs.pathJoin p executable))).map
        (fun p => fs.pathJoin p executable) := by
  induction l with
  | nil => intro seen hseen; rfl
  | cons p rest ih =>
      intro seen hseen
      rw [whichLoop]
      by_cases hmem : p ∈ seen
      · rw [if_pos hmem, ih seen hseen]
        have hfail := hseen p hmem
        simp [List.find?_cons_of_neg, hfail]
      · rw [if_neg hmem]
        by_cases hex : is_executable fs (fs.pathJoin p executable) = true
        · rw [if_pos hex]
          simp [List.find?_cons_of_pos, hex]
        · have hfail : is_executable fs (fs.pathJoin p executable) = false :=
            Bool.eq_false_iff.mpr hex
          rw [if_neg (by simp [hfail])]
          rw [ih (p :: seen) ?_]
          · simp [List.find?_cons_of_neg, hfail]
          · intro q hq
            rcases List.mem_cons.mp hq with hqp | hq2
            · rw [hqp]; exact hfail
            · exact hseen q hq2

/-- C10: `which` returns the join of the first case-normalized PATH entry
whose join with the executable exists, is not a directory and is executable
(previously seen failing entries being skipped without changing the result),
and returns none when no entry qualifies: it agrees everywhere with the
direct first-match description, and being a total function it never
raises. -/
theorem claim_C10 (fs : FileSystem) (pathList : List String)
    (executable : String) :
    which fs pathList executable = whichSpec fs pathList executable := by
  unfold which whichSpec
  exact whichLoop_eq_find fs executable _ []
    (fun p hp => absurd hp (List.not_mem_nil p))

end CiScripts
